import Mathlib

/-!
Verification of the multi-algorithm cryptographic envelope service
(`src/security/aes-encryption.ts`, `src/security/chacha20-encryption.ts`,
`src/security/rsa-encryption.ts`, `src/legacy/des-encryption.ts`).

Modelling conventions:
* JS byte arrays (`Uint8Array`) are `List Nat` whose elements are bytes
  (`< 256`); stores into a `Uint8Array` slot truncate with `% 256`,
  matching the ToUint8 coercion.
* JS strings are `List Char` (the envelope fields are all ASCII base64).
* The platform randomness source `crypto.getRandomValues` is modelled by an
  explicit stream `rng : Nat → Nat`; filling an `n`-byte buffer yields
  `randomBytes rng n` (each entry reduced `% 256` as a `Uint8Array` does).
* The platform `btoa`/`atob` pair (standard RFC 4648 base64 on
  byte-per-code-unit binary strings) is modelled concretely by
  `bytesToBase64Model`/`base64ToBytesModel` below.
* Vetted external WebCrypto primitives (AES-GCM, RSA-OAEP, PBKDF2) that the
  repository calls through `crypto.subtle` are modelled as ideal,
  deterministic primitives satisfying their documented contracts
  (round-trip under the matching key, tag equality checked on decrypt);
  the repository's own code (envelope assembly, tag splitting, base64,
  size checks, control flow) is translated from the source.
-/

/-- Bytes drawn from the platform RNG to fill an `n`-byte `Uint8Array`. -/
def randomBytes (rng : Nat → Nat) (n : Nat) : List Nat :=
  (List.range n).map (fun i => rng i % 256)

/-- The standard base64 alphabet used by `btoa`/`atob`. -/
def base64Alphabet : List Char :=
  ("ABCDEFGHIJKLMNOPQRSTUVWXYZabcdefghijklmnopqrstuvwxyz0123456789+/").toList

/-- Character for a 6-bit value. -/
def base64CharOf (v : Nat) : Char := base64Alphabet.getD v ('A')

/-- 6-bit value of an alphabet character. -/
def sextetOf (c : Char) : Nat := base64Alphabet.indexOf c

/-- Model of the platform `btoa` applied to a binary string holding the
given bytes one per code unit (RFC 4648, with `=` padding). -/
def bytesToBase64Model : List Nat → List Char
  | [] => []
  | [b0] =>
      [base64CharOf (b0 / 4), base64CharOf (b0 % 4 * 16), '=', '=']
  | [b0, b1] =>
      [base64CharOf (b0 / 4), base64CharOf (b0 % 4 * 16 + b1 / 16),
       base64CharOf (b1 % 16 * 4), '=']
  | b0 :: b1 :: b2 :: rest =>
      base64CharOf (b0 / 4) ::
      base64CharOf (b0 % 4 * 16 + b1 / 16) ::
      base64CharOf (b1 % 16 * 4 + b2 / 64) ::
      base64CharOf (b2 % 64) ::
      bytesToBase64Model rest

/-- Model of the platform `atob`, returning the decoded bytes (one per code
unit of the binary string `atob` produces). -/
def base64ToBytesModel : List Char → List Nat
  | c0 :: c1 :: c2 :: c3 :: rest =>
      if c2 == ('=') then
        [sextetOf c0 * 4 + sextetOf c1 / 16]
      else if c3 == ('=') then
        [sextetOf c0 * 4 + sextetOf c1 / 16,
         sextetOf c1 % 16 * 16 + sextetOf c2 / 4]
      else
        (sextetOf c0 * 4 + sextetOf c1 / 16) ::
        (sextetOf c1 % 16 * 16 + sextetOf c2 / 4) ::
        (sextetOf c2 % 4 * 64 + sextetOf c3) ::
        base64ToBytesModel rest
  | _ => []

theorem sextetOf_base64CharOf : ∀ v : Nat, v < 64 → sextetOf (base64CharOf v) = v := by
  decide

theorem base64CharOf_ne_pad : ∀ v : Nat, v < 64 → (base64CharOf v == ('=')) = false := by
  decide

theorem base64_model_roundtrip :
    ∀ l : List Nat, (∀ b ∈ l, b < 256) →
      base64ToBytesModel (bytesToBase64Model l) = l := by
  intro l
  induction l using bytesToBase64Model.induct with
  | case1 => intro h; rfl
  | case2 b0 =>
      intro h
      have hb0 : b0 < 256 := h b0 (by simp)
      simp only [bytesToBase64Model, base64ToBytesModel, beq_self_eq_true, if_true]
      rw [sextetOf_base64CharOf _ (by omega), sextetOf_base64CharOf _ (by omega)]
      simp only [List.cons.injEq, and_true]
      omega
  | case3 b0 b1 =>
      intro h
      have hb0 : b0 < 256 := h b0 (by simp)
      have hb1 : b1 < 256 := h b1 (by simp)
      have hc2 : (base64CharOf (b1 % 16 * 4) == ('=')) = false :=
        base64CharOf_ne_pad _ (by omega)
      simp only [bytesToBase64Model, base64ToBytesModel, hc2, Bool.false_eq_true,
        if_false, beq_self_eq_true, if_true]
      rw [sextetOf_base64CharOf _ (by omega), sextetOf_base64CharOf _ (by omega),
        sextetOf_base64CharOf _ (by omega)]
      simp only [List.cons.injEq, and_true]
      omega
  | case4 b0 b1 b2 rest ih =>
      intro h
      have hb0 : b0 < 256 := h b0 (by simp)
      have hb1 : b1 < 256 := h b1 (by simp)
      have hb2 : b2 < 256 := h b2 (by simp)
      have hc2 : (base64CharOf (b1 % 16 * 4 + b2 / 64) == ('=')) = false :=
        base64CharOf_ne_pad _ (by omega)
      have hc3 : (base64CharOf (b2 % 64) == ('=')) = false :=
        base64CharOf_ne_pad _ (by omega)
      simp only [bytesToBase64Model, base64ToBytesModel, hc2, hc3,
        Bool.false_eq_true, if_false]
      rw [sextetOf_base64CharOf _ (by omega), sextetOf_base64CharOf _ (by omega),
        sextetOf_base64CharOf _ (by omega), sextetOf_base64CharOf _ (by omega)]
      have hrest := ih (fun b hb => h b (by simp [hb]))
      simp only [List.cons.injEq]
      refine ⟨by omega, by omega, by omega, hrest⟩

/-- Decoding the base64 of a byte list recovers its length. -/
theorem base64_model_roundtrip_length (l : List Nat) (h : ∀ b ∈ l, b < 256) :
    (base64ToBytesModel (bytesToBase64Model l)).length = l.length := by
  rw [base64_model_roundtrip l h]

theorem randomBytes_length (rng : Nat → Nat) (n : Nat) :
    (randomBytes rng n).length = n := by
  simp [randomBytes]

theorem randomBytes_lt (rng : Nat → Nat) (n : Nat) :
    ∀ b ∈ randomBytes rng n, b < 256 := by
  intro b hb
  simp only [randomBytes, List.mem_map] at hb
  obtain ⟨i, _, rfl⟩ := hb
  exact Nat.mod_lt _ (by omega)

namespace ChaCha20Encryption

/-- `ChaCha20Config.variant` (`'ChaCha20' | 'XChaCha20'`). -/
inductive Variant
  | chacha20
  | xchacha20
deriving DecidableEq

def variantStr : Variant → List Char
  | .chacha20 => ("ChaCha20").toList
  | .xchacha20 => ("XChaCha20").toList

/-- `ChaCha20Config` with the constructor's defaults. -/
structure Config where
  keySize : Nat := 256
  nonceSize : Nat := 12
  variant : Variant := .chacha20
  rounds : Nat := 20

/-- `ChaCha20EncryptionResult` (the wall-clock `performance` block is real
time and is not modelled). -/
structure EncryptionResult where
  ciphertext : List Char
  nonce : List Char
  tag : List Char
  algorithm : List Char
deriving DecidableEq, Repr

/-- `ChaCha20DecryptionInput`. -/
structure DecryptionInput where
  ciphertext : List Char
  nonce : List Char
  tag : List Char
  algorithm : List Char
deriving DecidableEq, Repr

/-- `bytesToBase64`: byte-per-code-unit binary string fed to `btoa`. -/
def bytesToBase64 (bytes : List Nat) : List Char := bytesToBase64Model bytes

/-- `base64ToBytes`: `atob` followed by `charCodeAt` per position. -/
def base64ToBytes (base64 : List Char) : List Nat := base64ToBytesModel base64

/-- The simulated keystream byte of `simulateChaCha20Encryption`:
`(key[i % key.length] ^ nonce[i % nonce.length] ^ floor(i / 64)) & 0xFF`
(out-of-range JS indexing yields 0 after ToInt32, matching `getD _ 0`). -/
def keystreamByte (key nonce : List Nat) (i : Nat) : Nat :=
  (key.getD (i % key.length) 0 ^^^ nonce.getD (i % nonce.length) 0 ^^^ i / 64) &&& 255

/-- `simulateChaCha20Encryption`: XOR of each data byte with the simulated
keystream (stored into a `Uint8Array`, hence `% 256`), plus a 16-byte tag
drawn from the RNG (`crypto.getRandomValues` on a 16-byte buffer). -/
def simulateChaCha20Encryption (data key nonce : List Nat) (tagRng : Nat → Nat) :
    List Nat × List Nat :=
  ((List.range data.length).map (fun i => (data.getD i 0 ^^^ keystreamByte key nonce i) % 256),
   randomBytes tagRng 16)

/-- `simulateChaCha20Decryption`: re-runs the simulated encryption on the
ciphertext and keeps only the data part. -/
def simulateChaCha20Decryption (ciphertext key nonce : List Nat) (tagRng : Nat → Nat) :
    List Nat :=
  (simulateChaCha20Encryption ciphertext key nonce tagRng).1

/-- `verifyTag`: the source only checks that the tag is 16 bytes long. -/
def verifyTag (ciphertext nonce tag key : List Nat) : Bool :=
  tag.length == 16

/-- `setKey`: rejects keys that are not exactly 32 bytes. -/
def setKey (key : List Nat) : Except String (List Nat) :=
  if key.length ≠ 32 then
    .error ("ChaCha20 requires a 256-bit (32-byte) key")
  else
    .ok key

/-- `encrypt(data, key?)`: key is `key || this.key`; generates a random
nonce of `config.nonceSize` bytes, runs the simulated cipher, and
base64-encodes all envelope fields. No key-length validation happens on
this path. -/
def encrypt (cfg : Config) (data : List Nat) (key instanceKey : Option (List Nat))
    (nonceRng tagRng : Nat → Nat) : Except String EncryptionResult :=
  match key.orElse (fun _ => instanceKey) with
  | none => .error ("No encryption key available")
  | some encryptionKey =>
    let nonce := randomBytes nonceRng cfg.nonceSize
    let ct := simulateChaCha20Encryption data encryptionKey nonce tagRng
    .ok {
      ciphertext := bytesToBase64 ct.1
      nonce := bytesToBase64 nonce
      tag := bytesToBase64 ct.2
      algorithm := variantStr cfg.variant ++ ("-Poly1305").toList
    }

/-- `decrypt(input, key?)`: decodes the fields, verifies the tag first and
only then runs the simulated decryption; returns the decrypted bytes
(`TextDecoder` back to a JS string is the external identity bridge). -/
def decrypt (cfg : Config) (input : DecryptionInput) (key instanceKey : Option (List Nat))
    (tagRng : Nat → Nat) : Except String (List Nat) :=
  match key.orElse (fun _ => instanceKey) with
  | none => .error ("No decryption key available")
  | some decryptionKey =>
    let ciphertext := base64ToBytes input.ciphertext
    let nonce := base64ToBytes input.nonce
    let tag := base64ToBytes input.tag
    if verifyTag ciphertext nonce tag decryptionKey then
      .ok (simulateChaCha20Decryption ciphertext decryptionKey nonce tagRng)
    else
      .error ("Authentication failed: Data may have been tampered with")

/-- `setUint32(0, c, true)` on a 4-byte buffer: the little-endian bytes of
`c mod 2^32`. -/
def uint32LE (c : Nat) : List Nat :=
  let cm := c % 4294967296
  [cm % 256, cm / 256 % 256, cm / 65536 % 256, cm / 16777216 % 256]

/-- Per-chunk nonce of `encryptStream`: copy of the base nonce whose first
four bytes (when present) are XORed with the little-endian counter bytes. -/
def deriveChunkNonce (baseNonce : List Nat) (chunkCounter : Nat) : List Nat :=
  let counterBytes := uint32LE chunkCounter
  baseNonce.mapIdx (fun i b => if i < 4 then (b ^^^ counterBytes.getD i 0) % 256 else b)

/-- `encryptStream`: one random base nonce up front, then each chunk `j`
is encrypted under `deriveChunkNonce baseNonce j` (the post-incremented
`chunkCounter` starts at 0). There is no overflow check anywhere on this
path: every chunk of the input yields an output chunk. -/
def encryptStream (cfg : Config) (chunks : List (List Nat)) (key : List Nat)
    (baseRng tagRng : Nat → Nat) : List Nat × List (List Nat) :=
  let baseNonce := randomBytes baseRng cfg.nonceSize
  (baseNonce,
   chunks.mapIdx (fun j chunk =>
     (simulateChaCha20Encryption chunk key (deriveChunkNonce baseNonce j) tagRng).1))

end ChaCha20Encryption

namespace ChaCha20Encryption

theorem simulate_bytes_lt (data key nonce : List Nat) (tagRng : Nat → Nat) :
    ∀ b ∈ (simulateChaCha20Encryption data key nonce tagRng).1, b < 256 := by
  intro b hb
  simp only [simulateChaCha20Encryption, List.mem_map] at hb
  obtain ⟨i, _, rfl⟩ := hb
  exact Nat.mod_lt _ (by omega)

theorem simulate_length (data key nonce : List Nat) (tagRng : Nat → Nat) :
    (simulateChaCha20Encryption data key nonce tagRng).1.length = data.length := by
  simp [simulateChaCha20Encryption]

/-- Applying the simulated stream cipher twice under the same key and nonce
returns the original bytes. -/
theorem simulate_cancel (data key nonce : List Nat) (hd : ∀ b ∈ data, b < 256)
    (r1 r2 : Nat → Nat) :
    (simulateChaCha20Encryption
      (simulateChaCha20Encryption data key nonce r1).1 key nonce r2).1 = data := by
  simp only [simulateChaCha20Encryption]
  apply List.ext_getElem (by simp)
  intro i h1 h2
  have hi : i < data.length := h2
  simp only [List.getElem_map, List.getElem_range, List.length_map, List.length_range]
  have hct : ((List.range data.length).map
      (fun j => (data.getD j 0 ^^^ keystreamByte key nonce j) % 256)).getD i 0
      = (data.getD i 0 ^^^ keystreamByte key nonce i) % 256 := by
    rw [List.getD_eq_getElem _ _ (by simpa using hi)]
    simp
  rw [hct]
  have hdb : data.getD i 0 < 256 := by
    rw [List.getD_eq_getElem _ _ hi]
    exact hd _ (List.getElem_mem _)
  have hks : keystreamByte key nonce i < 256 :=
    lt_of_le_of_lt Nat.and_le_right (by omega)
  have hx : data.getD i 0 ^^^ keystreamByte key nonce i < 256 := by
    have : data.getD i 0 ^^^ keystreamByte key nonce i < 2 ^ 8 :=
      Nat.xor_lt_two_pow (by simpa using hdb) (by simpa using hks)
    simpa using this
  rw [Nat.mod_eq_of_lt hx, Nat.xor_cancel_right,
    Nat.mod_eq_of_lt hdb, List.getD_eq_getElem _ _ hi]

/-- Encrypt-then-decrypt under the same key returns the plaintext bytes. -/
theorem encrypt_decrypt_roundtrip_chacha (cfg : Config) (data key : List Nat)
    (hd : ∀ b ∈ data, b < 256) (nonceRng tagRng tagRng2 : Nat → Nat) :
    ∃ r, encrypt cfg data (some key) none nonceRng tagRng = .ok r ∧
      decrypt cfg ⟨r.ciphertext, r.nonce, r.tag, r.algorithm⟩ (some key) none tagRng2
        = .ok data := by
  refine ⟨_, rfl, ?_⟩
  simp only [encrypt, decrypt, Option.orElse, bytesToBase64, base64ToBytes]
  rw [base64_model_roundtrip _ (simulate_bytes_lt data key _ tagRng),
    base64_model_roundtrip _ (randomBytes_lt nonceRng cfg.nonceSize),
    base64_model_roundtrip _ (by
      simp only [simulateChaCha20Encryption]
      exact randomBytes_lt tagRng 16)]
  have hvt : verifyTag (simulateChaCha20Encryption data key
      (randomBytes nonceRng cfg.nonceSize) tagRng).1
      (randomBytes nonceRng cfg.nonceSize)
      (simulateChaCha20Encryption data key
        (randomBytes nonceRng cfg.nonceSize) tagRng).2 key = true := by
    simp [verifyTag, simulateChaCha20Encryption, randomBytes_length]
  rw [if_pos hvt]
  rw [simulateChaCha20Decryption, simulate_cancel data key _ hd tagRng tagRng2]

end ChaCha20Encryption

/-- XOR of each data byte with a keystream, stored into a `Uint8Array`
(`% 256`); shared shape of the ideal stream primitives modelled here. -/
def xorStream (ks : Nat → Nat) (data : List Nat) : List Nat :=
  (List.range data.length).map (fun i => (data.getD i 0 ^^^ ks i) % 256)

theorem xorStream_length (ks : Nat → Nat) (data : List Nat) :
    (xorStream ks data).length = data.length := by
  simp [xorStream]

theorem xorStream_lt (ks : Nat → Nat) (data : List Nat) :
    ∀ b ∈ xorStream ks data, b < 256 := by
  intro b hb
  simp only [xorStream, List.mem_map] at hb
  obtain ⟨i, _, rfl⟩ := hb
  exact Nat.mod_lt _ (by omega)

theorem xorStream_cancel (ks : Nat → Nat) (hks : ∀ i, ks i < 256)
    (data : List Nat) (hd : ∀ b ∈ data, b < 256) :
    xorStream ks (xorStream ks data) = data := by
  simp only [xorStream]
  apply List.ext_getElem (by simp)
  intro i h1 h2
  have hi : i < data.length := h2
  simp only [List.getElem_map, List.getElem_range, List.length_map, List.length_range]
  have hct : ((List.range data.length).map
      (fun j => (data.getD j 0 ^^^ ks j) % 256)).getD i 0
      = (data.getD i 0 ^^^ ks i) % 256 := by
    rw [List.getD_eq_getElem _ _ (by simpa using hi)]
    simp
  rw [hct]
  have hdb : data.getD i 0 < 256 := by
    rw [List.getD_eq_getElem _ _ hi]
    exact hd _ (List.getElem_mem _)
  have hx : data.getD i 0 ^^^ ks i < 256 := by
    have : data.getD i 0 ^^^ ks i < 2 ^ 8 :=
      Nat.xor_lt_two_pow (by simpa using hdb) (by simpa using hks i)
    simpa using this
  rw [Nat.mod_eq_of_lt hx, Nat.xor_cancel_right,
    Nat.mod_eq_of_lt hdb, List.getD_eq_getElem _ _ hi]

/-- Model of the platform `TextEncoder` on the (ASCII) strings that flow
through the encrypt paths: one byte per character. Any fixed injective
encoding serves the claims; the UTF-8 multi-byte layout is immaterial. -/
def textEncodeModel (s : List Char) : List Nat := s.map Char.toNat

/-- Model of the platform `TextDecoder`, the inverse on ASCII byte lists. -/
def textDecodeModel (bytes : List Nat) : List Char := bytes.map Char.ofNat

theorem textDecode_textEncode (s : List Char) :
    textDecodeModel (textEncodeModel s) = s := by
  simp only [textEncodeModel, textDecodeModel, List.map_map]
  exact List.map_id'' Char.ofNat_toNat s

namespace AESEncryption

/-- `AESConfig.mode` (`'GCM' | 'CBC' | 'CTR'`). -/
inductive Mode
  | gcm
  | cbc
  | ctr
deriving DecidableEq

/-- `AESConfig` with the constructor's defaults. -/
structure AESConfig where
  keySize : Nat := 256
  mode : Mode := .gcm
  ivLength : Nat := 12
  tagLength : Nat := 16
  keyDerivationIterations : Nat := 100000

def defaultConfig : AESConfig := {}

/-- `EncryptionResult` (also the shape of `DecryptionInput`, whose fields
are identical; `rotateKey` feeds results straight back into `decrypt`). -/
structure EncryptionResult where
  ciphertext : List Char
  iv : List Char
  tag : Option (List Char)
  salt : Option (List Char)
deriving DecidableEq, Repr

abbrev DecryptionInput := EncryptionResult

/-- `arrayBufferToBase64`: byte-per-code-unit binary string fed to `btoa`. -/
def arrayBufferToBase64 (buffer : List Nat) : List Char := bytesToBase64Model buffer

/-- `base64ToArrayBuffer`: `atob` followed by `charCodeAt` per position. -/
def base64ToArrayBuffer (base64 : List Char) : List Nat := base64ToBytesModel base64

/-- Keystream of the ideal model of the external WebCrypto AES-GCM
primitive (not repository code; kept a byte by the `&&& 255`). -/
def aesKeystreamByte (key iv : List Nat) (i : Nat) : Nat :=
  (key.getD (i % key.length) 0 ^^^ iv.getD (i % iv.length) 0 ^^^ i) &&& 255

/-- Deterministic tag of the ideal AES-GCM model: a function of key, IV and
ciphertext, so decryption can re-derive and compare it. -/
def gmacModel (key iv ct : List Nat) (tagLength : Nat) : List Nat :=
  (List.range tagLength).map (fun j =>
    (key.foldl (fun a b => a * 31 + b) 3 + iv.foldl (fun a b => a * 31 + b) 5 +
     ct.foldl (fun a b => a * 31 + b) 7 + j) % 256)

/-- Ideal model of `crypto.subtle.encrypt({name: 'AES-GCM', iv, tagLength})`:
ciphertext followed by the authentication tag. -/
def subtleAesGcmEncrypt (key iv data : List Nat) (tagLength : Nat) : List Nat :=
  let ct := xorStream (aesKeystreamByte key iv) data
  ct ++ gmacModel key iv ct tagLength

/-- Ideal model of `crypto.subtle.decrypt({name: 'AES-GCM', ...})`: splits
off the trailing tag, rejects unless it matches the re-derived tag, and
only then inverts the keystream. -/
def subtleAesGcmDecrypt (key iv enc : List Nat) (tagLength : Nat) :
    Except Unit (List Nat) :=
  if enc.length < tagLength then .error ()
  else
    let ct := enc.take (enc.length - tagLength)
    let tag := enc.drop (enc.length - tagLength)
    if tag = gmacModel key iv ct tagLength then
      .ok (xorStream (aesKeystreamByte key iv) ct)
    else .error ()

/-- Ideal model of the external PBKDF2 primitive behind
`crypto.subtle.deriveKey`: a deterministic function of password bytes,
salt, iteration count and key length. -/
def pbkdf2Model (password salt : List Nat) (iterations keySizeBits : Nat) : List Nat :=
  (List.range (keySizeBits / 8)).map (fun i =>
    (password.foldl (fun a b => a * 31 + b) 7 + salt.foldl (fun a b => a * 37 + b) 11 +
     iterations * 131 + i) % 256)

/-- `deriveKeyFromPassword(password, salt?)`: generates a random 16-byte
salt when none is given, then derives the key via PBKDF2 from the
password bytes, the salt and `config.keyDerivationIterations`. -/
def deriveKeyFromPassword (cfg : AESConfig) (password : List Char)
    (salt : Option (List Nat)) (saltRng : Nat → Nat) : List Nat × List Nat :=
  let saltV := salt.getD (randomBytes saltRng 16)
  (pbkdf2Model (textEncodeModel password) saltV cfg.keyDerivationIterations cfg.keySize,
   saltV)

/-- `generateKey`: `config.keySize` bits of secure randomness. -/
def generateKey (cfg : AESConfig) (rng : Nat → Nat) : List Nat :=
  randomBytes rng (cfg.keySize / 8)

/-- `encrypt(data, key?, password?)`: picks the key (explicit key, then
password derivation, then the instance master key, else an error),
generates a random IV, runs AES-GCM, splits ciphertext and tag with
`slice(0, -tagLength)` / `slice(-tagLength)` and base64-encodes. -/
def encrypt (cfg : AESConfig) (data : List Nat) (key : Option (List Nat))
    (password : Option (List Char)) (masterKey : Option (List Nat))
    (ivRng saltRng : Nat → Nat) : Except String EncryptionResult :=
  let det : Except String (List Nat × Option (List Nat)) :=
    match key with
    | some k => .ok (k, none)
    | none =>
      match password with
      | some pw =>
        let d := deriveKeyFromPassword cfg pw none saltRng
        .ok (d.1, some d.2)
      | none =>
        match masterKey with
        | some mk => .ok (mk, none)
        | none => .error ("No encryption key provided")
  det.bind (fun ks =>
    let iv := randomBytes ivRng cfg.ivLength
    let encrypted := subtleAesGcmEncrypt ks.1 iv data cfg.tagLength
    let ciphertext := encrypted.take (encrypted.length - cfg.tagLength)
    let tagBytes := encrypted.drop (encrypted.length - cfg.tagLength)
    .ok {
      ciphertext := arrayBufferToBase64 ciphertext
      iv := arrayBufferToBase64 iv
      tag := some (arrayBufferToBase64 tagBytes)
      salt := ks.2.map arrayBufferToBase64
    })

/-- `decrypt(input, key?, password?)`: picks the key (explicit key, then
password + envelope salt, then master key, else an error), recombines
ciphertext and tag and hands them to AES-GCM; any primitive failure
becomes the unified decryption error. -/
def decrypt (cfg : AESConfig) (input : DecryptionInput) (key : Option (List Nat))
    (password : Option (List Char)) (masterKey : Option (List Nat)) :
    Except String (List Nat) :=
  let det : Except String (List Nat) :=
    match key with
    | some k => .ok k
    | none =>
      match password, input.salt with
      | some pw, some saltB64 =>
        .ok (deriveKeyFromPassword cfg pw
          (some (base64ToArrayBuffer saltB64)) (fun _ => 0)).1
      | _, _ =>
        match masterKey with
        | some mk => .ok mk
        | none => .error ("No decryption key provided")
  det.bind (fun k =>
    let ciphertext := base64ToArrayBuffer input.ciphertext
    let iv := base64ToArrayBuffer input.iv
    let tag := match input.tag with
      | some t => base64ToArrayBuffer t
      | none => []
    let encryptedData := ciphertext ++ tag
    match subtleAesGcmDecrypt k iv encryptedData cfg.tagLength with
    | .ok d => .ok d
    | .error _ => .error ("Decryption failed: Invalid key or corrupted data"))

/-- The per-item loop of `rotateKey`: decrypt with the old key, re-encrypt
with the new key; a thrown error propagates out of the whole loop. -/
def rotateGo (cfg : AESConfig) (oldKey newKey : List Nat) (ivRngs : Nat → Nat → Nat) :
    Nat → List EncryptionResult → Except String (List EncryptionResult)
  | _, [] => .ok []
  | i, item :: rest =>
    match decrypt cfg item (some oldKey) none none with
    | .error e => .error e
    | .ok decrypted =>
      match encrypt cfg decrypted (some newKey) none none (ivRngs i) (ivRngs i) with
      | .error e => .error e
      | .ok encrypted =>
        match rotateGo cfg oldKey newKey ivRngs (i + 1) rest with
        | .error e => .error e
        | .ok others => .ok (encrypted :: others)

/-- `rotateKey(oldKey, data)`: generates a new key, then sequentially
decrypts each envelope with the old key and re-encrypts it with the new
one. There is no per-item failure accumulator: the first failure aborts
the whole call. -/
def rotateKey (cfg : AESConfig) (oldKey : List Nat) (data : List EncryptionResult)
    (keyRng : Nat → Nat) (ivRngs : Nat → Nat → Nat) :
    Except String (List Nat × List EncryptionResult) :=
  let newKey := generateKey cfg keyRng
  (rotateGo cfg oldKey newKey ivRngs 0 data).map (fun l => (newKey, l))

end AESEncryption

namespace RSAEncryption

/-- `RSAConfig.hashAlgorithm` (`'SHA-256' | 'SHA-384' | 'SHA-512'`). -/
inductive HashAlg
  | sha256
  | sha384
  | sha512
deriving DecidableEq

def hashStr : HashAlg → List Char
  | .sha256 => ("SHA-256").toList
  | .sha384 => ("SHA-384").toList
  | .sha512 => ("SHA-512").toList

/-- `RSAConfig.paddingScheme` (`'OAEP' | 'PKCS1'`; `mgf` is the constant
`'MGF1'` and carries no information). -/
inductive PadScheme
  | oaep
  | pkcs1
deriving DecidableEq

/-- `RSAConfig` with the constructor's defaults. `keySize` is a plain
number at runtime (the TS union `2048 | 3072 | 4096` is erased). -/
structure RSAConfig where
  keySize : Nat := 4096
  hashAlgorithm : HashAlg := .sha256
  paddingScheme : PadScheme := .oaep

def defaultConfig : RSAConfig := {}

/-- `RSAEncryptionResult`. -/
structure RSAEncryptionResult where
  ciphertext : List Char
  keySize : Nat
  algorithm : List Char
deriving DecidableEq, Repr

def arrayBufferToBase64 (buffer : List Nat) : List Char := bytesToBase64Model buffer

def base64ToArrayBuffer (base64 : List Char) : List Nat := base64ToBytesModel base64

/-- `getHashSizeBytes`: hash output size from the configured algorithm
(the `default` arm of the source switch is unreachable for these three). -/
def getHashSizeBytes (cfg : RSAConfig) : Nat :=
  match cfg.hashAlgorithm with
  | .sha256 => 32
  | .sha384 => 48
  | .sha512 => 64

/-- `getMaxDataSize`: `keySizeBytes - 2 * hashSizeBytes - 2`, the OAEP
capacity bound, computed from the configured hash. -/
def getMaxDataSize (cfg : RSAConfig) : Nat :=
  cfg.keySize / 8 - 2 * getHashSizeBytes cfg - 2

/-- The oversize error message of `encrypt`. -/
def dataTooLargeMsg (maxSize got : Nat) : String :=
  "Data too large for RSA encryption. Max size: " ++ toString maxSize ++
    " bytes, got: " ++ toString got ++ " bytes"

/-- Pad stream of the ideal model of the external RSA-OAEP primitive: a
key handle is an opaque `Nat`; a matching key pair shares the handle. -/
def rsaPadByte (keyId i : Nat) : Nat := (keyId * 131 + i * 13 + 17) % 256

/-- Ideal model of `crypto.subtle.encrypt({name: 'RSA-OAEP'}, pub, data)`
(not repository code): invertible under the matching private handle. -/
def rsaOaepEncryptPrim (keyId : Nat) (data : List Nat) : List Nat :=
  xorStream (rsaPadByte keyId) data

/-- Ideal model of `crypto.subtle.decrypt({name: 'RSA-OAEP'}, priv, ct)`;
the claims only exercise decryption under the matching key pair. -/
def rsaOaepDecryptPrim (keyId : Nat) (ct : List Nat) : List Nat :=
  xorStream (rsaPadByte keyId) ct

/-- `encrypt(data, publicKey?)`: size check against the OAEP bound before
any primitive call, then RSA-OAEP and base64. `dataBytes` is the
`TextEncoder` image of the JS string argument. -/
def encrypt (cfg : RSAConfig) (dataBytes : List Nat) (publicKey instancePub : Option Nat) :
    Except String RSAEncryptionResult :=
  match publicKey.orElse (fun _ => instancePub) with
  | none => .error ("No public key available for encryption")
  | some k =>
    if dataBytes.length > getMaxDataSize cfg then
      .error (dataTooLargeMsg (getMaxDataSize cfg) dataBytes.length)
    else
      .ok {
        ciphertext := arrayBufferToBase64 (rsaOaepEncryptPrim k dataBytes)
        keySize := cfg.keySize
        algorithm := ("RSA-").toList ++ (toString cfg.keySize).toList ++
          ("-OAEP-").toList ++ hashStr cfg.hashAlgorithm
      }

/-- `decrypt(encryptionResult, privateKey?)`: base64-decode and RSA-OAEP
decrypt; the decrypted bytes go through `TextDecoder` at the caller. -/
def decrypt (cfg : RSAConfig) (res : RSAEncryptionResult)
    (privateKey instancePriv : Option Nat) : Except String (List Nat) :=
  match privateKey.orElse (fun _ => instancePriv) with
  | none => .error ("No private key available for decryption")
  | some k => .ok (rsaOaepDecryptPrim k (base64ToArrayBuffer res.ciphertext))

/-- `hybridEncrypt`'s result shape. -/
structure HybridResult where
  encryptedData : List Char
  encryptedKey : RSAEncryptionResult
  iv : List Char
deriving DecidableEq, Repr

/-- `hybridEncrypt(data, publicKey?)`: fresh random 256-bit AES key and
12-byte IV, AES-GCM over the data (default 16-byte tag, not split), then
the exported key bytes are base64-encoded and RSA-encrypted. -/
def hybridEncrypt (cfg : RSAConfig) (data : List Nat) (publicKey instancePub : Option Nat)
    (aesKeyRng ivRng : Nat → Nat) : Except String HybridResult :=
  let aesKey := randomBytes aesKeyRng 32
  let iv := randomBytes ivRng 12
  let encryptedData := AESEncryption.subtleAesGcmEncrypt aesKey iv data 16
  let aesKeyBase64 := arrayBufferToBase64 aesKey
  (encrypt cfg (textEncodeModel aesKeyBase64) publicKey instancePub).map (fun ek =>
    { encryptedData := arrayBufferToBase64 encryptedData
      encryptedKey := ek
      iv := arrayBufferToBase64 iv })

/-- `hybridDecrypt`: RSA-decrypt the wrapped key (a base64 string), decode
it back to key bytes, import, and AES-GCM-decrypt the data. -/
def hybridDecrypt (cfg : RSAConfig) (hr : HybridResult)
    (privateKey instancePriv : Option Nat) : Except String (List Nat) :=
  (decrypt cfg hr.encryptedKey privateKey instancePriv).bind (fun aesKeyBytes =>
    let aesKeyBase64 := textDecodeModel aesKeyBytes
    let aesKeyData := base64ToArrayBuffer aesKeyBase64
    let encryptedData := base64ToArrayBuffer hr.encryptedData
    let iv := base64ToArrayBuffer hr.iv
    match AESEncryption.subtleAesGcmDecrypt aesKeyData iv encryptedData 16 with
    | .ok d => .ok d
    | .error _ => .error ("OperationError"))

def keySizeSmallIssue : List Char :=
  ("Key size too small: minimum 2048 bits recommended").toList

def longTermIssue : List Char :=
  ("Consider using 3072+ bit keys for long-term security").toList

def quantumWarningIssue : List Char :=
  ("WARNING: RSA is vulnerable to quantum attacks. Consider post-quantum alternatives for long-term data protection.").toList

def warningMark : List Char := ("WARNING").toList

/-- `issue.startsWith('WARNING')`. -/
def strStartsWith (s p : List Char) : Bool := p.isPrefixOf s

/-- Result shape of `validateConfig`. -/
structure ValidationResult where
  isValid : Bool
  issues : List (List Char)
deriving DecidableEq

/-- `validateConfig`: collects issues (small key, long-term note, and the
unconditional quantum warning); `isValid` counts only the issues that do
not start with `'WARNING'`. -/
def validateConfig (cfg : RSAConfig) : ValidationResult :=
  let issues :=
    (if cfg.keySize < 2048 then [keySizeSmallIssue] else []) ++
    (if cfg.keySize < 3072 then [longTermIssue] else []) ++
    [quantumWarningIssue]
  { isValid := (issues.filter (fun i => !(strStartsWith i warningMark))).length == 0
    issues := issues }

end RSAEncryption

namespace DESEncryption

/-- `DESConfig.algorithm` (`'DES' | '3DES'`). -/
inductive Algorithm
  | des
  | tdes
deriving DecidableEq

def algStr : Algorithm → List Char
  | .des => ("DES").toList
  | .tdes => ("3DES").toList

/-- `DESConfig.mode` (`'CBC' | 'ECB'`). -/
inductive DESMode
  | cbc
  | ecb
deriving DecidableEq

def modeStr : DESMode → List Char
  | .cbc => ("CBC").toList
  | .ecb => ("ECB").toList

/-- `DESConfig.padding` (`'PKCS7' | 'NONE'`). -/
inductive Padding
  | pkcs7
  | noPadding
deriving DecidableEq

/-- `DESConfig` with the constructor's defaults. -/
structure DESConfig where
  algorithm : Algorithm := .tdes
  mode : DESMode := .cbc
  padding : Padding := .pkcs7
  keyLength : Nat := 24

def defaultConfig : DESConfig := {}

/-- `DESEncryptionResult`. -/
structure DESEncryptionResult where
  ciphertext : List Char
  iv : Option (List Char)
  algorithm : List Char
  deprecated : Bool
  migrationWarning : List Char
deriving DecidableEq, Repr

def bytesToBase64 (bytes : List Nat) : List Char := bytesToBase64Model bytes

def base64ToBytes (base64 : List Char) : List Nat := base64ToBytesModel base64

/-- The key-length error message of `encrypt`/`decrypt`. -/
def invalidKeyLengthMsg (expected got : Nat) : String :=
  "Invalid key length: expected " ++ toString expected ++ " bytes, got " ++
    toString got

/-- `applyPadding`: PKCS7 up to the 8-byte DES block size (identity for
`'NONE'`). -/
def applyPadding (cfg : DESConfig) (data : List Nat) : List Nat :=
  match cfg.padding with
  | .pkcs7 =>
    let paddingLength := 8 - data.length % 8
    data ++ List.replicate paddingLength paddingLength
  | .noPadding => data

/-- `simulateDESEncryption`: XOR of each byte with the cycled key byte and
(in CBC mode) the cycled IV byte. -/
def simulateDESEncryption (data key : List Nat) (iv : Option (List Nat)) : List Nat :=
  (List.range data.length).map (fun i =>
    (data.getD i 0 ^^^ key.getD (i % key.length) 0 ^^^
      (match iv with
       | some v => v.getD (i % v.length) 0
       | none => 0)) % 256)

/-- The fixed migration warning attached to every encryption result. -/
def migrationWarningText : List Char :=
  ("This data was encrypted with deprecated DES. Migrate to AES-256 immediately.").toList

/-- `encrypt(data, key)`: rejects wrong key length, draws an 8-byte IV in
CBC mode, pads, runs the simulated cipher, and always marks the result
`deprecated` with the migration warning. -/
def encrypt (cfg : DESConfig) (data key : List Nat) (ivRng : Nat → Nat) :
    Except String DESEncryptionResult :=
  if key.length ≠ cfg.keyLength then
    .error (invalidKeyLengthMsg cfg.keyLength key.length)
  else
    let iv : Option (List Nat) :=
      match cfg.mode with
      | .cbc => some (randomBytes ivRng 8)
      | .ecb => none
    let padded := applyPadding cfg data
    let ciphertext := simulateDESEncryption padded key iv
    .ok {
      ciphertext := bytesToBase64 ciphertext
      iv := iv.map bytesToBase64
      algorithm := algStr cfg.algorithm ++ ("-").toList ++ modeStr cfg.mode
      deprecated := true
      migrationWarning := migrationWarningText
    }

/-- Result shape of `generateMigrationPlan`. -/
structure MigrationPlan where
  currentSecurity : List Char
  recommendedAlgorithm : List Char
  migrationSteps : List (List Char)
  urgency : List Char
  risks : List (List Char)
deriving DecidableEq

/-- `generateMigrationPlan`: the fixed structured advisory. -/
def generateMigrationPlan : MigrationPlan :=
  { currentSecurity := ("CRITICALLY INSECURE").toList
    recommendedAlgorithm := ("AES-256-GCM").toList
    migrationSteps := [
      ("1. Audit all systems using DES encryption").toList,
      ("2. Implement AES-256-GCM encryption alongside DES").toList,
      ("3. Decrypt existing data with DES keys").toList,
      ("4. Re-encrypt all data with AES-256 keys").toList,
      ("5. Update all applications to use AES").toList,
      ("6. Securely destroy all DES keys").toList,
      ("7. Remove DES code from all systems").toList]
    urgency := ("IMMEDIATE - This should be treated as a security incident").toList
    risks := [
      ("DES 56-bit keys can be broken in hours").toList,
      ("3DES is vulnerable to Sweet32 attacks").toList,
      ("Performance degradation compared to AES").toList,
      ("Compliance violations (PCI DSS, FIPS)").toList,
      ("Regulatory penalties possible").toList,
      ("Data breach liability").toList] }

end DESEncryption

theorem base64CharOf_toNat_lt (v : Nat) : (base64CharOf v).toNat < 256 := by
  rcases Nat.lt_or_ge v 64 with h | h
  · exact (by decide : ∀ w, w < 64 → (base64CharOf w).toNat < 256) v h
  · unfold base64CharOf
    rw [List.getD_eq_default _ _ (by
      have : base64Alphabet.length = 64 := by decide
      omega)]
    decide

/-- Every character `btoa` emits is ASCII. -/
theorem bytesToBase64Model_ascii :
    ∀ l : List Nat, ∀ c ∈ bytesToBase64Model l, c.toNat < 256 := by
  intro l
  induction l using bytesToBase64Model.induct with
  | case1 => intro c hc; simp [bytesToBase64Model] at hc
  | case2 b0 =>
      intro c hc
      simp only [bytesToBase64Model, List.mem_cons, List.mem_singleton] at hc
      rcases hc with rfl | rfl | rfl | rfl | h
      · exact base64CharOf_toNat_lt _
      · exact base64CharOf_toNat_lt _
      · decide
      · decide
      · simp at h
  | case3 b0 b1 =>
      intro c hc
      simp only [bytesToBase64Model, List.mem_cons, List.mem_singleton] at hc
      rcases hc with rfl | rfl | rfl | rfl | h
      · exact base64CharOf_toNat_lt _
      · exact base64CharOf_toNat_lt _
      · exact base64CharOf_toNat_lt _
      · decide
      · simp at h
  | case4 b0 b1 b2 rest ih =>
      intro c hc
      simp only [bytesToBase64Model, List.mem_cons] at hc
      rcases hc with rfl | rfl | rfl | rfl | h
      · exact base64CharOf_toNat_lt _
      · exact base64CharOf_toNat_lt _
      · exact base64CharOf_toNat_lt _
      · exact base64CharOf_toNat_lt _
      · exact ih c h

/-- `btoa` output length: four characters per started 3-byte block. -/
theorem bytesToBase64Model_length :
    ∀ l : List Nat, (bytesToBase64Model l).length = (l.length + 2) / 3 * 4 := by
  intro l
  induction l using bytesToBase64Model.induct with
  | case1 => rfl
  | case2 b0 => simp [bytesToBase64Model]
  | case3 b0 b1 => simp [bytesToBase64Model]
  | case4 b0 b1 b2 rest ih =>
      simp only [bytesToBase64Model, List.length_cons, ih]
      omega

namespace AESEncryption

theorem gmacModel_length (key iv ct : List Nat) (t : Nat) :
    (gmacModel key iv ct t).length = t := by
  simp [gmacModel]

theorem gmacModel_lt (key iv ct : List Nat) (t : Nat) :
    ∀ b ∈ gmacModel key iv ct t, b < 256 := by
  intro b hb
  simp only [gmacModel, List.mem_map] at hb
  obtain ⟨j, _, rfl⟩ := hb
  exact Nat.mod_lt _ (by omega)

theorem aesKeystreamByte_lt (key iv : List Nat) (i : Nat) :
    aesKeystreamByte key iv i < 256 :=
  lt_of_le_of_lt Nat.and_le_right (by omega)

theorem subtleAesGcmEncrypt_length (key iv data : List Nat) (t : Nat) :
    (subtleAesGcmEncrypt key iv data t).length = data.length + t := by
  simp [subtleAesGcmEncrypt, xorStream_length, gmacModel_length]

theorem subtleAesGcmEncrypt_lt (key iv data : List Nat) (t : Nat) :
    ∀ b ∈ subtleAesGcmEncrypt key iv data t, b < 256 := by
  intro b hb
  simp only [subtleAesGcmEncrypt, List.mem_append] at hb
  rcases hb with hb | hb
  · exact xorStream_lt _ _ b hb
  · exact gmacModel_lt _ _ _ _ b hb

/-- The ideal AES-GCM primitive round-trips under the matching key. -/
theorem subtleAesGcm_roundtrip (key iv data : List Nat) (t : Nat)
    (hd : ∀ b ∈ data, b < 256) :
    subtleAesGcmDecrypt key iv (subtleAesGcmEncrypt key iv data t) t = .ok data := by
  have hctl : (xorStream (aesKeystreamByte key iv) data).length = data.length :=
    xorStream_length _ _
  have hlen : (subtleAesGcmEncrypt key iv data t).length = data.length + t :=
    subtleAesGcmEncrypt_length _ _ _ _
  rw [subtleAesGcmDecrypt, if_neg (by omega)]
  have hcut : (subtleAesGcmEncrypt key iv data t).length - t
      = (xorStream (aesKeystreamByte key iv) data).length := by omega
  simp only [subtleAesGcmEncrypt] at hcut ⊢
  rw [hcut, List.take_left, List.drop_left, if_pos rfl,
    xorStream_cancel _ (aesKeystreamByte_lt key iv) data hd]

/-- `AESEncryption.encrypt` then `AESEncryption.decrypt` under the same key
returns the plaintext bytes. -/
theorem encrypt_decrypt_roundtrip_aes (cfg : AESConfig) (data key : List Nat)
    (hd : ∀ b ∈ data, b < 256) (ivRng saltRng : Nat → Nat) :
    ∃ r, encrypt cfg data (some key) none none ivRng saltRng = .ok r ∧
      decrypt cfg r (some key) none none = .ok data := by
  refine ⟨_, rfl, ?_⟩
  simp only [encrypt, decrypt, Except.bind, arrayBufferToBase64, base64ToArrayBuffer]
  have henc := subtleAesGcmEncrypt_lt key (randomBytes ivRng cfg.ivLength) data cfg.tagLength
  rw [base64_model_roundtrip _ (fun b hb => henc b (List.take_subset _ _ hb)),
    base64_model_roundtrip _ (randomBytes_lt ivRng cfg.ivLength),
    base64_model_roundtrip _ (fun b hb => henc b (List.drop_subset _ _ hb)),
    List.take_append_drop,
    subtleAesGcm_roundtrip _ _ _ _ hd]

end AESEncryption

namespace RSAEncryption

theorem rsaPadByte_lt (keyId i : Nat) : rsaPadByte keyId i < 256 :=
  Nat.mod_lt _ (by omega)

theorem getMaxDataSize_ge (cfg : RSAConfig)
    (hks : cfg.keySize = 2048 ∨ cfg.keySize = 3072 ∨ cfg.keySize = 4096) :
    126 ≤ getMaxDataSize cfg := by
  have hh : getHashSizeBytes cfg ≤ 64 := by
    cases hcase : cfg.hashAlgorithm <;> simp [getHashSizeBytes, hcase]
  unfold getMaxDataSize
  rcases hks with h | h | h <;> rw [h] <;> omega

/-- `hybridEncrypt` then `hybridDecrypt` under the matching key pair
returns the plaintext bytes, for every configured key size. -/
theorem hybrid_roundtrip (cfg : RSAConfig) (data : List Nat) (keyId : Nat)
    (aesKeyRng ivRng : Nat → Nat)
    (hks : cfg.keySize = 2048 ∨ cfg.keySize = 3072 ∨ cfg.keySize = 4096)
    (hd : ∀ b ∈ data, b < 256) :
    ∃ hr, hybridEncrypt cfg data (some keyId) none aesKeyRng ivRng = .ok hr ∧
      hybridDecrypt cfg hr (some keyId) none = .ok data := by
  have hmax := getMaxDataSize_ge cfg hks
  have hlen : (textEncodeModel (arrayBufferToBase64 (randomBytes aesKeyRng 32))).length
      = 44 := by
    simp [textEncodeModel, arrayBufferToBase64, bytesToBase64Model_length,
      randomBytes_length]
  simp only [hybridEncrypt, encrypt, Option.orElse]
  rw [if_neg (by omega)]
  simp only [Except.map]
  refine ⟨_, rfl, ?_⟩
  simp only [hybridDecrypt, decrypt, Option.orElse, Except.bind,
    arrayBufferToBase64, base64ToArrayBuffer, rsaOaepEncryptPrim, rsaOaepDecryptPrim]
  rw [base64_model_roundtrip _ (xorStream_lt _ _)]
  rw [xorStream_cancel _ (rsaPadByte_lt keyId) _ (by
    intro b hb
    simp only [textEncodeModel, List.mem_map] at hb
    obtain ⟨c, hc, rfl⟩ := hb
    exact bytesToBase64Model_ascii _ c hc)]
  rw [textDecode_textEncode]
  rw [base64_model_roundtrip _ (randomBytes_lt aesKeyRng 32),
    base64_model_roundtrip _ (AESEncryption.subtleAesGcmEncrypt_lt _ _ _ _),
    base64_model_roundtrip _ (randomBytes_lt ivRng 12),
    AESEncryption.subtleAesGcm_roundtrip _ _ _ _ hd]

end RSAEncryption

instance {ε α : Type} [DecidableEq ε] [DecidableEq α] : DecidableEq (Except ε α) :=
  fun x y =>
    match x, y with
    | .ok a, .ok b =>
        if h : a = b then .isTrue (by rw [h]) else .isFalse (by simp [h])
    | .error a, .error b =>
        if h : a = b then .isTrue (by rw [h]) else .isFalse (by simp [h])
    | .ok _, .error _ => .isFalse (by simp)
    | .error _, .ok _ => .isFalse (by simp)

/-- C1: for every supported algorithm, a key of the algorithm's required
size and any byte sequence `m` (including the empty one), decrypting the
envelope produced by encrypting `m` under `k` with the same `k` returns
`m`: ChaCha20-Poly1305 (`ChaCha20Encryption.encrypt`/`decrypt`), AES-GCM
(`AESEncryption.encrypt`/`decrypt`), and the hybrid pair
(`RSAEncryption.hybridEncrypt`/`hybridDecrypt`). -/
theorem roundtrip_all_supported_algorithms :
    (∀ (cfg : ChaCha20Encryption.Config) (data key : List Nat)
        (nonceRng tagRng tagRng2 : Nat → Nat),
      key.length = 32 → (∀ b ∈ data, b < 256) →
      ∃ r, ChaCha20Encryption.encrypt cfg data (some key) none nonceRng tagRng = .ok r ∧
        ChaCha20Encryption.decrypt cfg ⟨r.ciphertext, r.nonce, r.tag, r.algorithm⟩
          (some key) none tagRng2 = .ok data) ∧
    (∀ (cfg : AESEncryption.AESConfig) (data key : List Nat) (ivRng saltRng : Nat → Nat),
      key.length = cfg.keySize / 8 → (∀ b ∈ data, b < 256) →
      ∃ r, AESEncryption.encrypt cfg data (some key) none none ivRng saltRng = .ok r ∧
        AESEncryption.decrypt cfg r (some key) none none = .ok data) ∧
    (∀ (cfg : RSAEncryption.RSAConfig) (data : List Nat) (keyId : Nat)
        (aesKeyRng ivRng : Nat → Nat),
      (cfg.keySize = 2048 ∨ cfg.keySize = 3072 ∨ cfg.keySize = 4096) →
      (∀ b ∈ data, b < 256) →
      ∃ hr, RSAEncryption.hybridEncrypt cfg data (some keyId) none aesKeyRng ivRng = .ok hr ∧
        RSAEncryption.hybridDecrypt cfg hr (some keyId) none = .ok data) := by
  refine ⟨?_, ?_, ?_⟩
  · intro cfg data key nR tR tR2 _ hd
    exact ChaCha20Encryption.encrypt_decrypt_roundtrip_chacha cfg data key hd nR tR tR2
  · intro cfg data key iR sR _ hd
    exact AESEncryption.encrypt_decrypt_roundtrip_aes cfg data key hd iR sR
  · intro cfg data keyId aR iR hks hd
    exact RSAEncryption.hybrid_roundtrip cfg data keyId aR iR hks hd

/-- Witness for C1 at a concrete plaintext, key and RNG streams. -/
theorem roundtrip_all_supported_algorithms_witness :
    (∃ r, ChaCha20Encryption.encrypt {} [104, 105] (some (List.replicate 32 7)) none
        (fun _ => 1) (fun _ => 2) = .ok r ∧
      ChaCha20Encryption.decrypt {} ⟨r.ciphertext, r.nonce, r.tag, r.algorithm⟩
        (some (List.replicate 32 7)) none (fun _ => 3) = .ok [104, 105]) ∧
    (∃ r, AESEncryption.encrypt {} [104, 105] (some (List.replicate 32 7)) none none
        (fun _ => 1) (fun _ => 2) = .ok r ∧
      AESEncryption.decrypt {} r (some (List.replicate 32 7)) none none = .ok [104, 105]) ∧
    (∃ hr, RSAEncryption.hybridEncrypt {} [104, 105] (some 9) none
        (fun _ => 1) (fun _ => 2) = .ok hr ∧
      RSAEncryption.hybridDecrypt {} hr (some 9) none = .ok [104, 105]) :=
  ⟨roundtrip_all_supported_algorithms.1 {} [104, 105] (List.replicate 32 7)
      (fun _ => 1) (fun _ => 2) (fun _ => 3) (by decide) (by decide),
   roundtrip_all_supported_algorithms.2.1 {} [104, 105] (List.replicate 32 7)
      (fun _ => 1) (fun _ => 2) (by decide) (by decide),
   roundtrip_all_supported_algorithms.2.2 {} [104, 105] 9
      (fun _ => 1) (fun _ => 2) (Or.inr (Or.inr rfl)) (by decide)⟩

/-- C9: the base64 codec used for the envelope fields round-trips exactly
on every byte sequence, in both the AES and the ChaCha20 module. -/
theorem base64_envelope_roundtrip :
    ∀ b : List Nat, (∀ x ∈ b, x < 256) →
      AESEncryption.base64ToArrayBuffer (AESEncryption.arrayBufferToBase64 b) = b ∧
      ChaCha20Encryption.base64ToBytes (ChaCha20Encryption.bytesToBase64 b) = b := by
  intro b hb
  exact ⟨base64_model_roundtrip b hb, base64_model_roundtrip b hb⟩

/-- Witness for C9 on a concrete byte sequence. -/
theorem base64_envelope_roundtrip_witness :
    AESEncryption.base64ToArrayBuffer
      (AESEncryption.arrayBufferToBase64 [0, 255, 7, 8]) = [0, 255, 7, 8] ∧
    ChaCha20Encryption.base64ToBytes
      (ChaCha20Encryption.bytesToBase64 [0, 255, 7, 8]) = [0, 255, 7, 8] :=
  base64_envelope_roundtrip [0, 255, 7, 8] (by decide)

/-- C7: key derivation is deterministic in password and salt (two calls
with the same password and salt agree, whatever the RNG state), and a
salt-less call generates a fresh random 16-byte salt from that call's RNG
draw, so calls with distinct RNG draws get distinct salts. -/
theorem deriveKeyFromPassword_determinism :
    (∀ (cfg : AESEncryption.AESConfig) (password : List Char) (salt : List Nat)
        (rng rng' : Nat → Nat),
      AESEncryption.deriveKeyFromPassword cfg password (some salt) rng
        = AESEncryption.deriveKeyFromPassword cfg password (some salt) rng') ∧
    (∀ (cfg : AESEncryption.AESConfig) (password : List Char) (rng : Nat → Nat),
      (AESEncryption.deriveKeyFromPassword cfg password none rng).2
        = randomBytes rng 16) ∧
    (∀ (cfg cfg' : AESEncryption.AESConfig) (p p' : List Char) (rng rng' : Nat → Nat),
      randomBytes rng 16 ≠ randomBytes rng' 16 →
      (AESEncryption.deriveKeyFromPassword cfg p none rng).2
        ≠ (AESEncryption.deriveKeyFromPassword cfg' p' none rng').2) := by
  refine ⟨?_, ?_, ?_⟩
  · intro cfg pw salt rng rng'
    rfl
  · intro cfg pw rng
    rfl
  · intro cfg cfg' p p' rng rng' hne
    simpa [AESEncryption.deriveKeyFromPassword] using hne

/-- Witness for C7 at concrete passwords, salts and RNG streams. -/
theorem deriveKeyFromPassword_determinism_witness :
    (AESEncryption.deriveKeyFromPassword {} (("pw").toList) (some [1, 2]) (fun _ => 0)
      = AESEncryption.deriveKeyFromPassword {} (("pw").toList) (some [1, 2]) (fun _ => 5)) ∧
    ((AESEncryption.deriveKeyFromPassword {} (("pw").toList) none (fun _ => 9)).2
      = randomBytes (fun _ => 9) 16) ∧
    ((AESEncryption.deriveKeyFromPassword {} (("a").toList) none (fun _ => 1)).2
      ≠ (AESEncryption.deriveKeyFromPassword {} (("b").toList) none (fun _ => 2)).2) :=
  ⟨deriveKeyFromPassword_determinism.1 {} (("pw").toList) [1, 2] (fun _ => 0) (fun _ => 5),
   deriveKeyFromPassword_determinism.2.1 {} (("pw").toList) (fun _ => 9),
   deriveKeyFromPassword_determinism.2.2 {} {} (("a").toList) (("b").toList)
     (fun _ => 1) (fun _ => 2) (by decide)⟩

set_option maxRecDepth 4000 in
/-- C2 (evidence of the code bug): `ChaCha20Encryption.decrypt` accepts
tampered envelopes. Flipping one ciphertext bit of the envelope of
`[104, 105]` under the all-7 32-byte key is not detected: decrypt returns
altered plaintext `[105, 105]`; and flipping one bit of the tag is also
accepted (`verifyTag` checks only the 16-byte length), releasing the
plaintext instead of failing with an authentication error. -/
theorem chacha_decrypt_accepts_tampered_envelope :
    (ChaCha20Encryption.encrypt {} [104, 105] (some (List.replicate 32 7)) none
        (fun _ => 1) (fun _ => 2)
      = .ok { ciphertext := ChaCha20Encryption.bytesToBase64 [110, 111],
              nonce := ChaCha20Encryption.bytesToBase64 (List.replicate 12 1),
              tag := ChaCha20Encryption.bytesToBase64 (List.replicate 16 2),
              algorithm := ("ChaCha20-Poly1305").toList }) ∧
    (ChaCha20Encryption.decrypt {}
        { ciphertext := ChaCha20Encryption.bytesToBase64 [111, 111],
          nonce := ChaCha20Encryption.bytesToBase64 (List.replicate 12 1),
          tag := ChaCha20Encryption.bytesToBase64 (List.replicate 16 2),
          algorithm := ("ChaCha20-Poly1305").toList }
        (some (List.replicate 32 7)) none (fun _ => 0)
      = .ok [105, 105]) ∧
    ([105, 105] ≠ [104, 105]) ∧
    (ChaCha20Encryption.decrypt {}
        { ciphertext := ChaCha20Encryption.bytesToBase64 [110, 111],
          nonce := ChaCha20Encryption.bytesToBase64 (List.replicate 12 1),
          tag := ChaCha20Encryption.bytesToBase64 (3 :: List.replicate 15 2),
          algorithm := ("ChaCha20-Poly1305").toList }
        (some (List.replicate 32 7)) none (fun _ => 0)
      = .ok [104, 105]) := by
  decide

/-- C4 (evidence of the code bug): `ChaCha20Encryption.encryptStream` has
no fail-closed path — it emits one ciphertext chunk per input chunk for
any number of chunks — and its per-chunk nonce derivation wraps: the
counter is stored with `setUint32` modulo `2^32`, so chunk `2^32` gets
exactly the same derived nonce as chunk `0` instead of a
`NonceSpaceExhausted` failure. -/
theorem encryptStream_counter_wraps :
    (∀ (cfg : ChaCha20Encryption.Config) (chunks : List (List Nat)) (key : List Nat)
        (baseRng tagRng : Nat → Nat),
      (ChaCha20Encryption.encryptStream cfg chunks key baseRng tagRng).2.length
        = chunks.length) ∧
    (∀ baseNonce : List Nat,
      ChaCha20Encryption.deriveChunkNonce baseNonce 4294967296
        = ChaCha20Encryption.deriveChunkNonce baseNonce 0) := by
  constructor
  · intro cfg chunks key bR tR
    simp [ChaCha20Encryption.encryptStream]
  · intro baseNonce
    rfl

/-- C5: RSA-OAEP capacity bound. The hash size is taken from the
configured hash algorithm (32/48/64 bytes for SHA-256/384/512), the bound
is `keySizeBytes - 2*hashSizeBytes - 2`, `encrypt` succeeds for every
plaintext up to the bound and fails with the oversize
(`PlaintextTooLarge`) error for one byte over it. -/
theorem rsa_oaep_capacity_bound :
    ∀ (cfg : RSAEncryption.RSAConfig) (dataBytes : List Nat) (keyId : Nat),
      (cfg.keySize = 2048 ∨ cfg.keySize = 3072 ∨ cfg.keySize = 4096) →
      ((cfg.hashAlgorithm = .sha256 → RSAEncryption.getHashSizeBytes cfg = 32) ∧
       (cfg.hashAlgorithm = .sha384 → RSAEncryption.getHashSizeBytes cfg = 48) ∧
       (cfg.hashAlgorithm = .sha512 → RSAEncryption.getHashSizeBytes cfg = 64)) ∧
      (RSAEncryption.getMaxDataSize cfg
        = cfg.keySize / 8 - 2 * RSAEncryption.getHashSizeBytes cfg - 2) ∧
      (dataBytes.length ≤ RSAEncryption.getMaxDataSize cfg →
        ∃ r, RSAEncryption.encrypt cfg dataBytes (some keyId) none = .ok r) ∧
      (dataBytes.length = RSAEncryption.getMaxDataSize cfg + 1 →
        RSAEncryption.encrypt cfg dataBytes (some keyId) none
          = .error (RSAEncryption.dataTooLargeMsg (RSAEncryption.getMaxDataSize cfg)
              dataBytes.length)) := by
  intro cfg dataBytes keyId _
  refine ⟨⟨?_, ?_, ?_⟩, rfl, ?_, ?_⟩
  · intro h; simp [RSAEncryption.getHashSizeBytes, h]
  · intro h; simp [RSAEncryption.getHashSizeBytes, h]
  · intro h; simp [RSAEncryption.getHashSizeBytes, h]
  · intro hle
    simp only [RSAEncryption.encrypt, Option.orElse]
    rw [if_neg (by omega)]
    exact ⟨_, rfl⟩
  · intro heq
    simp only [RSAEncryption.encrypt, Option.orElse]
    rw [if_pos (by omega)]

set_option maxRecDepth 8000 in
/-- Witness for C5 with the default configuration (4096-bit key, SHA-256,
bound 446): the empty plaintext succeeds, 447 bytes fail. -/
theorem rsa_oaep_capacity_bound_witness :
    (∃ r, RSAEncryption.encrypt {} [] (some 5) none = .ok r) ∧
    RSAEncryption.encrypt {} (List.replicate 447 0) (some 5) none
      = .error (RSAEncryption.dataTooLargeMsg (RSAEncryption.getMaxDataSize {})
          (List.replicate 447 0).length) :=
  ⟨(rsa_oaep_capacity_bound {} [] 5 (Or.inr (Or.inr rfl))).2.2.1 (by decide),
   (rsa_oaep_capacity_bound {} (List.replicate 447 0) 5 (Or.inr (Or.inr rfl))).2.2.2
     (by decide)⟩

/-- C6 (counterexample): a 31-byte key passed directly as `encrypt`'s key
argument is not rejected: encryption proceeds and produces an envelope,
instead of failing with the `InvalidKeyLength` error. -/
theorem chacha_encrypt_skips_keylength_check_cex :
    ChaCha20Encryption.encrypt {} [104] (some (List.replicate 31 7)) none
        (fun _ => 1) (fun _ => 2)
      = .ok { ciphertext := ChaCha20Encryption.bytesToBase64 [110],
              nonce := ChaCha20Encryption.bytesToBase64 (List.replicate 12 1),
              tag := ChaCha20Encryption.bytesToBase64 (List.replicate 16 2),
              algorithm := ("ChaCha20-Poly1305").toList } := by
  decide

/-- C6 (amended): only `setKey` validates the 32-byte key length and fails
with the `InvalidKeyLength` error; `encrypt` performs no length check on a
directly-passed key and always returns an envelope for it. -/
theorem chacha_keylength_checked_only_in_setKey :
    (∀ key : List Nat, key.length ≠ 32 →
      ChaCha20Encryption.setKey key
        = .error ("ChaCha20 requires a 256-bit (32-byte) key")) ∧
    (∀ (cfg : ChaCha20Encryption.Config) (data key : List Nat)
        (nonceRng tagRng : Nat → Nat),
      ∃ r, ChaCha20Encryption.encrypt cfg data (some key) none nonceRng tagRng
        = .ok r) := by
  constructor
  · intro key h
    simp [ChaCha20Encryption.setKey, h]
  · intro cfg data key nR tR
    exact ⟨_, rfl⟩

/-- Witness for the amended C6 at a concrete 31-byte key. -/
theorem chacha_keylength_checked_only_in_setKey_witness :
    ChaCha20Encryption.setKey (List.replicate 31 7)
      = .error ("ChaCha20 requires a 256-bit (32-byte) key") ∧
    ∃ r, ChaCha20Encryption.encrypt {} [1] (some (List.replicate 31 7)) none
        (fun _ => 0) (fun _ => 0) = .ok r :=
  ⟨chacha_keylength_checked_only_in_setKey.1 (List.replicate 31 7) (by decide),
   chacha_keylength_checked_only_in_setKey.2 {} [1] (List.replicate 31 7)
     (fun _ => 0) (fun _ => 0)⟩

/-- C8: every DES/3DES encryption result is marked deprecated and carries
the migration warning, and the structured advisory's `migrationSteps` is a
non-empty ordered sequence. -/
theorem des_encrypt_always_carries_advisory :
    ∀ (cfg : DESEncryption.DESConfig) (data key : List Nat) (ivRng : Nat → Nat),
      key.length = cfg.keyLength →
      (∃ r, DESEncryption.encrypt cfg data key ivRng = .ok r ∧
        r.deprecated = true ∧ r.migrationWarning ≠ []) ∧
      DESEncryption.generateMigrationPlan.migrationSteps ≠ [] := by
  intro cfg data key ivRng hk
  constructor
  · simp only [DESEncryption.encrypt]
    rw [if_neg (by omega)]
    refine ⟨_, rfl, rfl, ?_⟩
    show DESEncryption.migrationWarningText ≠ []
    decide
  · decide

/-- Witness for C8 with the default 3DES-CBC configuration and a 24-byte
key. -/
theorem des_encrypt_always_carries_advisory_witness :
    (∃ r, DESEncryption.encrypt {} [104, 105] (List.replicate 24 3) (fun _ => 1)
      = .ok r ∧ r.deprecated = true ∧ r.migrationWarning ≠ []) ∧
    DESEncryption.generateMigrationPlan.migrationSteps ≠ [] :=
  des_encrypt_always_carries_advisory {} [104, 105] (List.replicate 24 3)
    (fun _ => 1) (by decide)

/-- C10: `RSAEncryption.validateConfig` never returns an empty issues list
(the quantum-resistance WARNING entry is always appended), `isValid` is
true exactly when every returned issue starts with `'WARNING'`, a key size
below 2048 forces `isValid = false`, and a key size below 3072 adds the
long-term-security note. -/
theorem validateConfig_warning_semantics :
    ∀ cfg : RSAEncryption.RSAConfig,
      (RSAEncryption.validateConfig cfg).issues ≠ [] ∧
      RSAEncryption.quantumWarningIssue ∈ (RSAEncryption.validateConfig cfg).issues ∧
      RSAEncryption.strStartsWith RSAEncryption.quantumWarningIssue
        RSAEncryption.warningMark = true ∧
      ((RSAEncryption.validateConfig cfg).isValid = true ↔
        ∀ i ∈ (RSAEncryption.validateConfig cfg).issues,
          RSAEncryption.strStartsWith i RSAEncryption.warningMark = true) ∧
      (cfg.keySize < 2048 → (RSAEncryption.validateConfig cfg).isValid = false) ∧
      (cfg.keySize < 3072 →
        RSAEncryption.longTermIssue ∈ (RSAEncryption.validateConfig cfg).issues) := by
  intro cfg
  unfold RSAEncryption.validateConfig
  by_cases h1 : cfg.keySize < 2048
  · have h2 : cfg.keySize < 3072 := by omega
    simp only [if_pos h1, if_pos h2]
    exact ⟨by decide, by decide, by decide, by decide,
      fun _ => by decide, fun _ => by decide⟩
  · by_cases h2 : cfg.keySize < 3072
    · simp only [if_neg h1, if_pos h2]
      exact ⟨by decide, by decide, by decide, by decide,
        fun h => absurd h h1, fun _ => by decide⟩
    · simp only [if_neg h1, if_neg h2]
      exact ⟨by decide, by decide, by decide, by decide,
        fun h => absurd h h1, fun h => absurd h h2⟩

namespace AESEncryption

/-- A failing envelope anywhere in the batch makes the whole `rotateGo`
loop (and hence `rotateKey`) return an error: the thrown decryption error
propagates out of the `for` loop. -/
theorem rotateGo_error_of_bad (cfg : AESConfig) (oldKey newKey : List Nat)
    (ivRngs : Nat → Nat → Nat) :
    ∀ (i : Nat) (data : List EncryptionResult),
      (∃ item ∈ data, (decrypt cfg item (some oldKey) none none).isOk = false) →
      ∃ msg, rotateGo cfg oldKey newKey ivRngs i data = .error msg := by
  intro i data
  induction data generalizing i with
  | nil =>
      rintro ⟨x, hx, _⟩
      simp at hx
  | cons item rest ih =>
      rintro ⟨x, hx, hbad⟩
      rcases List.mem_cons.mp hx with rfl | hx'
      · cases hdec : decrypt cfg x (some oldKey) none none with
        | ok d =>
            rw [hdec] at hbad
            simp [Except.isOk, Except.toBool] at hbad
        | error e =>
            exact ⟨e, by simp [rotateGo, hdec]⟩
      · cases hdec : decrypt cfg item (some oldKey) none none with
        | error e =>
            exact ⟨e, by simp [rotateGo, hdec]⟩
        | ok d =>
            obtain ⟨msg, hmsg⟩ := ih (i + 1) ⟨x, hx', hbad⟩
            obtain ⟨r, hr⟩ : ∃ r, encrypt cfg d (some newKey) none none
                (ivRngs i) (ivRngs i) = .ok r := ⟨_, rfl⟩
            exact ⟨msg, by simp [rotateGo, hdec, hr, hmsg]⟩

/-- When `rotateGo` does succeed, it returns exactly one re-encrypted
envelope per input envelope. -/
theorem rotateGo_map_length (cfg : AESConfig) (oldKey newKey : List Nat)
    (ivRngs : Nat → Nat → Nat) :
    ∀ (i : Nat) (data : List EncryptionResult),
      (rotateGo cfg oldKey newKey ivRngs i data).map List.length
        = (rotateGo cfg oldKey newKey ivRngs i data).map (fun _ => data.length) := by
  intro i data
  induction data generalizing i with
  | nil => rfl
  | cons item rest ih =>
      cases hdec : decrypt cfg item (some oldKey) none none with
      | error e => simp [rotateGo, hdec, Except.map]
      | ok d =>
          obtain ⟨r, hr⟩ : ∃ r, encrypt cfg d (some newKey) none none
              (ivRngs i) (ivRngs i) = .ok r := ⟨_, rfl⟩
          cases hrest : rotateGo cfg oldKey newKey ivRngs (i + 1) rest with
          | error e => simp [rotateGo, hdec, hr, hrest, Except.map]
          | ok others =>
              have hlen := ih (i + 1)
              rw [hrest] at hlen
              simp only [Except.map, Except.ok.injEq] at hlen
              simp [rotateGo, hdec, hr, hrest, hlen, Except.map]

end AESEncryption

/-- C3 (amended): `AESEncryption.rotateKey` is all-or-nothing. Any
envelope in the batch that fails to decrypt under the old key aborts the
whole rotation with an error — nothing is returned and no per-item
failures are recorded — and when rotation does succeed it returns exactly
one re-encrypted envelope per input. -/
theorem rotateKey_all_or_nothing :
    (∀ (cfg : AESEncryption.AESConfig) (oldKey : List Nat)
        (data : List AESEncryption.EncryptionResult)
        (keyRng : Nat → Nat) (ivRngs : Nat → Nat → Nat),
      (∃ item ∈ data,
        (AESEncryption.decrypt cfg item (some oldKey) none none).isOk = false) →
      ∃ msg, AESEncryption.rotateKey cfg oldKey data keyRng ivRngs = .error msg) ∧
    (∀ (cfg : AESEncryption.AESConfig) (oldKey : List Nat)
        (data : List AESEncryption.EncryptionResult)
        (keyRng : Nat → Nat) (ivRngs : Nat → Nat → Nat),
      (AESEncryption.rotateKey cfg oldKey data keyRng ivRngs).map (fun p => p.2.length)
        = (AESEncryption.rotateKey cfg oldKey data keyRng ivRngs).map
            (fun _ => data.length)) := by
  constructor
  · intro cfg oldKey data keyRng ivRngs hbad
    obtain ⟨msg, hmsg⟩ := AESEncryption.rotateGo_error_of_bad cfg oldKey
      (AESEncryption.generateKey cfg keyRng) ivRngs 0 data hbad
    exact ⟨msg, by simp [AESEncryption.rotateKey, hmsg, Except.map]⟩
  · intro cfg oldKey data keyRng ivRngs
    have hlen := AESEncryption.rotateGo_map_length cfg oldKey
      (AESEncryption.generateKey cfg keyRng) ivRngs 0 data
    cases hr : AESEncryption.rotateGo cfg oldKey
        (AESEncryption.generateKey cfg keyRng) ivRngs 0 data with
    | error e => simp [AESEncryption.rotateKey, hr, Except.map]
    | ok l =>
        rw [hr] at hlen
        simp only [Except.map, Except.ok.injEq] at hlen
        simp [AESEncryption.rotateKey, hr, hlen, Except.map]

/-- Concrete rotation batch for C3: the old key and RNG stream. -/
def rotationDemoKey : List Nat := List.replicate 32 7

/-- A well-formed envelope of the one-byte plaintext `[m]` under
`rotationDemoKey`. -/
def rotationDemoEnvelope (m : Nat) : AESEncryption.EncryptionResult :=
  (AESEncryption.encrypt {} [m] (some rotationDemoKey) none none
    (fun _ => 1) (fun _ => 1)).toOption.getD
      { ciphertext := [], iv := [], tag := none, salt := none }

/-- `rotationDemoEnvelope 3` with the low bit of its first tag byte
flipped — a deliberately corrupted tag. -/
def rotationDemoCorrupted : AESEncryption.EncryptionResult :=
  let e := rotationDemoEnvelope 3
  { e with tag := e.tag.map (fun t =>
      match base64ToBytesModel t with
      | b :: rest => bytesToBase64Model ((b ^^^ 1) :: rest)
      | [] => []) }

set_option maxRecDepth 8000 in
/-- C3 (counterexample): five envelopes of which exactly one has a
corrupted tag (the other four decrypt fine) make `rotateKey` abort with
the decryption error — it does not return 4 successes and 1 recorded
failure. -/
theorem rotateKey_aborts_on_corrupt_batch_cex :
    ((AESEncryption.decrypt {} (rotationDemoEnvelope 1)
        (some rotationDemoKey) none none).isOk = true) ∧
    ((AESEncryption.decrypt {} (rotationDemoEnvelope 2)
        (some rotationDemoKey) none none).isOk = true) ∧
    ((AESEncryption.decrypt {} (rotationDemoEnvelope 4)
        (some rotationDemoKey) none none).isOk = true) ∧
    ((AESEncryption.decrypt {} (rotationDemoEnvelope 5)
        (some rotationDemoKey) none none).isOk = true) ∧
    ((AESEncryption.decrypt {} rotationDemoCorrupted
        (some rotationDemoKey) none none).isOk = false) ∧
    (AESEncryption.rotateKey {} rotationDemoKey
        [rotationDemoEnvelope 1, rotationDemoEnvelope 2, rotationDemoCorrupted,
         rotationDemoEnvelope 4, rotationDemoEnvelope 5]
        (fun _ => 9) (fun _ _ => 1)
      = .error ("Decryption failed: Invalid key or corrupted data")) := by
  decide

set_option maxRecDepth 8000 in
/-- Witness for the amended C3: the failure branch at a concrete corrupt
batch and the length-preservation branch at a concrete good batch. -/
theorem rotateKey_all_or_nothing_witness :
    (∃ msg, AESEncryption.rotateKey {} rotationDemoKey
        [rotationDemoEnvelope 1, rotationDemoCorrupted]
        (fun _ => 9) (fun _ _ => 1) = .error msg) ∧
    ((AESEncryption.rotateKey {} rotationDemoKey [rotationDemoEnvelope 1]
        (fun _ => 9) (fun _ _ => 1)).map (fun p => p.2.length)
      = (AESEncryption.rotateKey {} rotationDemoKey [rotationDemoEnvelope 1]
          (fun _ => 9) (fun _ _ => 1)).map
            (fun _ => [rotationDemoEnvelope 1].length)) :=
  ⟨rotateKey_all_or_nothing.1 {} rotationDemoKey
      [rotationDemoEnvelope 1, rotationDemoCorrupted] (fun _ => 9) (fun _ _ => 1)
      ⟨rotationDemoCorrupted, by decide, by decide⟩,
   rotateKey_all_or_nothing.2 {} rotationDemoKey [rotationDemoEnvelope 1]
      (fun _ => 9) (fun _ _ => 1)⟩

/-- Witness for C10 at a concrete weak configuration (1024-bit key). -/
theorem validateConfig_warning_semantics_witness :
    (RSAEncryption.validateConfig { keySize := 1024 }).isValid = false ∧
    RSAEncryption.longTermIssue
      ∈ (RSAEncryption.validateConfig { keySize := 1024 }).issues ∧
    (RSAEncryption.validateConfig { keySize := 1024 }).issues ≠ [] :=
  ⟨(validateConfig_warning_semantics { keySize := 1024 }).2.2.2.2.1 (by decide),
   (validateConfig_warning_semantics { keySize := 1024 }).2.2.2.2.2 (by decide),
   (validateConfig_warning_semantics { keySize := 1024 }).1⟩
